import Mathlib

/-!
Shallow embedding of the project-management backend (Express + Mongoose
controllers) and proofs about its access-control and consistency behaviour.

The embedding models the MongoDB collections as Lean lists, a Mongoose
transaction as staged state that becomes visible only on commit, and a
thrown `ApiError` as an `Except` error carrying the HTTP status code.
Every controller's outer `try { ... } catch { throw new ApiError(500, ...) }`
block is modelled faithfully: errors thrown inside the `try` are surfaced
as status 500.
-/

namespace ProjectMgmt

/-- Request-supplied ids. `mongoose.Types.ObjectId.isValid` separates
well-formed object ids from malformed strings; a well-formed id is
modelled by the `valid` constructor. -/
inductive IdStr where
  | valid (n : Nat)
  | malformed
deriving DecidableEq, Repr

/-- Model of `mongoose.Types.ObjectId.isValid`. -/
def isValidObjectId : IdStr → Bool
  | IdStr.valid _ => true
  | IdStr.malformed => false

/-- Model of JavaScript String.prototype.toLowerCase (the only string
library call the controllers make on roles, emails and sort orders),
written over the character list so that it evaluates. -/
def jsToLower (s : String) : String := ⟨s.data.map Char.toLower⟩

/-- Model of JavaScript String.prototype.trim: drops whitespace at both
ends, written over the character list so that it evaluates. -/
def jsTrim (s : String) : String :=
  ⟨((s.data.dropWhile (fun c => c = ' ' || c = '\t' || c = '\n' || c = '\r')).reverse.dropWhile
      (fun c => c = ' ' || c = '\t' || c = '\n' || c = '\r')).reverse⟩

/-- UserRolesEnum.ADMIN from src/utils/constants.js. -/
def UserRolesEnum.ADMIN : String := "admin"

/-- UserRolesEnum.PROJECT_ADMIN from src/utils/constants.js. -/
def UserRolesEnum.PROJECT_ADMIN : String := "project_admin"

/-- UserRolesEnum.MEMBER from src/utils/constants.js. -/
def UserRolesEnum.MEMBER : String := "member"

/-- AvailableUserRoles = Object.values(UserRolesEnum) from src/utils/constants.js. -/
def AvailableUserRoles : List String :=
  [UserRolesEnum.ADMIN, UserRolesEnum.PROJECT_ADMIN, UserRolesEnum.MEMBER]

/-- A Project document: `name`, `description`, `createdBy` as used by the
controllers (the project model file itself is not among the sources; the
fields are the ones the controllers read and write). -/
structure Project where
  id : Nat
  name : String
  description : String
  createdBy : Nat
deriving DecidableEq, Repr

/-- A ProjectMember document: the join row `{project, users, role}` used by
the controllers (the field is spelled `users` in the queries). -/
structure ProjectMember where
  id : Nat
  project : Nat
  users : Nat
  role : String
deriving DecidableEq, Repr

/-- A Task document with the fields read and written by task.controller.js.
`dueDate` is `Option String`: `none` models the JavaScript `null`, and a
stored `Date` is identified with its source representation. -/
structure Task where
  id : Nat
  project : Nat
  title : String
  description : String
  assignedBy : Nat
  assignedTo : Option Nat
  status : String
  priority : String
  dueDate : Option String
deriving DecidableEq, Repr

/-- A ProjectNote document `{project, createdBy, content}` from note.controller.js. -/
structure ProjectNote where
  id : Nat
  project : Nat
  createdBy : Nat
  content : String
deriving DecidableEq, Repr

/-- A User document with the fields the project controller reads. -/
structure User where
  id : Nat
  email : String
  fullName : String
deriving DecidableEq, Repr

/-- The persistent store: one list per MongoDB collection. -/
structure DB where
  projects : List Project
  members : List ProjectMember
  tasks : List Task
  notes : List ProjectNote
  users : List User
deriving DecidableEq, Repr

/-- Model of `Project.findById(projectId)`. -/
def findProject (db : DB) (pid : Nat) : Option Project :=
  db.projects.find? (fun p => p.id == pid)

/-- Model of `ProjectMember.findOne({ project: projectId, users: userId })`. -/
def findMember (db : DB) (pid uid : Nat) : Option ProjectMember :=
  db.members.find? (fun m => m.project == pid && m.users == uid)

/-- Model of `User.findOne({ email: email.toLowerCase() })`. -/
def findUserByEmail (db : DB) (email : String) : Option User :=
  db.users.find? (fun u => u.email == jsToLower email)

/-- isProjectMember from src/src/controllers/project.controller.js (lines 18-44).
Malformed ids return false before the try block; `fault` models a storage
error thrown during the lookups inside the try block, which the catch turns
into `return false` (fail closed). Otherwise: true if the project exists and
the user is its creator, else true iff a membership row exists for
(project, user) regardless of role. -/
def isProjectMember (db : DB) (fault : Bool) (projectId userId : IdStr) : Bool :=
  match projectId, userId with
  | IdStr.valid pid, IdStr.valid uid =>
      if fault then false
      else
        match findProject db pid with
        | none => false
        | some p =>
            if p.createdBy == uid then true
            else (findMember db pid uid).isSome
  | _, _ => false

/-- isProjectAdmin from src/src/controllers/project.controller.js (lines 52-84).
Same shape as `isProjectMember` except that a membership row only qualifies
when `member.role === UserRolesEnum.ADMIN` (the literal "admin"). -/
def isProjectAdmin (db : DB) (fault : Bool) (projectId userId : IdStr) : Bool :=
  match projectId, userId with
  | IdStr.valid pid, IdStr.valid uid =>
      if fault then false
      else
        match findProject db pid with
        | none => false
        | some p =>
            if p.createdBy == uid then true
            else
              match findMember db pid uid with
              | none => false
              | some m => m.role == UserRolesEnum.ADMIN
  | _, _ => false

/-- Outcome of createProject: the created project id, or the ApiError status. -/
inductive CPOut where
  | ok (pid : Nat)
  | err (code : Nat)
deriving DecidableEq, Repr

/-- createProject from src/src/controllers/project.controller.js (lines 153-210).
A blank name is rejected with 400 before the transaction. Inside the
transaction the Project row and the creator's admin ProjectMember row are
staged; `commitTransaction` makes both visible, `abortTransaction` discards
both. The unique index on Project.name lives in the model file, which is not
among the sources; it is modelled from the spec ("name (unique)"): inserting
a duplicate name raises the duplicate-key error (code 11000) which the catch
maps to a 400 ApiError. `inject` models a failure injected between the two
writes; any other error inside the transaction maps to 500. `pid` and `mid`
are the ids Mongo assigns to the new rows. -/
def createProject (db : DB) (actor : Nat) (name description : String)
    (pid mid : Nat) (inject : Bool) : CPOut × DB :=
  if (jsTrim name).isEmpty then (CPOut.err 400, db)
  else if db.projects.any (fun p => p.name == name) then (CPOut.err 400, db)
  else
    let project : Project :=
      { id := pid, name := name, description := description, createdBy := actor }
    let staged : DB := { db with projects := db.projects ++ [project] }
    if inject then (CPOut.err 500, db)
    else
      let member : ProjectMember :=
        { id := mid, project := pid, users := actor, role := UserRolesEnum.ADMIN }
      (CPOut.ok pid, { staged with members := staged.members ++ [member] })

/-- An error thrown inside the try block of removeMemberFromProject: an
ApiError carrying its status, or the TypeError thrown at line 472. -/
inductive RMErr where
  | apiError (code : Nat)
  | typeError
deriving DecidableEq, Repr

/-- Body of the try block of removeMemberFromProject
(src/src/controllers/project.controller.js lines 447-483). The member
lookup (lines 457-460) projects `.select("user")`, but the schema field is
spelled `users` (the spelling every other query uses), so the returned lean
document carries only its `_id` and its `users` field is absent. The
creator guard (line 467) fires first; past it, line 472 reads
`memberToRemove.users.equals(req.user._id)` on the absent field, which
throws a TypeError — so the delete at line 478, and the 200 response, are
unreachable: no call ever removes a membership row. -/
def removeMemberInner (db : DB) (actor pid mid : Nat) : Except RMErr DB :=
  match findProject db pid with
  | none => Except.error (RMErr.apiError 404)
  | some project =>
    match findMember db pid mid with
    | none => Except.error (RMErr.apiError 404)
    | some memberToRemove =>
      if project.createdBy == mid then Except.error (RMErr.apiError 400)
      else
        -- line 472: memberToRemove.users is undefined (projection kept only
        -- _id), so `.equals` throws; actor and memberToRemove are never used
        Except.error RMErr.typeError

/-- removeMemberFromProject from src/src/controllers/project.controller.js
(lines 440-488). Malformed ids give 400 before the try block; every error
thrown inside the try block — ApiError or the line-472 TypeError — is
rethrown as 500 by the catch. The success branch of the match mirrors the
source's 200 response but is unreachable. -/
def removeMemberFromProject (db : DB) (actor : Nat) (projectId memberId : IdStr) :
    Except Nat Unit × DB :=
  match projectId, memberId with
  | IdStr.valid pid, IdStr.valid mid =>
      match removeMemberInner db actor pid mid with
      | Except.ok db2 => (Except.ok (), db2)
      | Except.error _ => (Except.error 500, db)
  | _, _ => (Except.error 400, db)

/-- Body of the try block of updateProjectMemberRole
(src/src/controllers/project.controller.js lines 567-601). -/
def updateProjectMemberRoleInner (db : DB) (actor pid mid : Nat) (role : String) :
    Except Nat (ProjectMember × DB) :=
  match findProject db pid with
  | none => Except.error 404
  | some _ =>
    match findMember db pid mid with
    | none => Except.error 404
    | some target =>
      if !(isProjectAdmin db false (IdStr.valid pid) (IdStr.valid actor)) then Except.error 403
      else
        let updated : ProjectMember := { target with role := role }
        Except.ok (updated,
          { db with members := db.members.map (fun m => if m.id == target.id then updated else m) })

/-- updateProjectMemberRole from src/src/controllers/project.controller.js
(lines 553-602). Malformed ids and a missing or unknown role give 400 before
the try block (`!role || !AvailableUserRoles.includes(role)`; the role is not
lowercased here); errors inside the try are rethrown as 500 by the catch. -/
def updateProjectMemberRole (db : DB) (actor : Nat) (projectId memberId : IdStr)
    (role : Option String) : Except Nat ProjectMember × DB :=
  match projectId, memberId with
  | IdStr.valid pid, IdStr.valid mid =>
      match role with
      | none => (Except.error 400, db)
      | some r =>
        if !(AvailableUserRoles.contains r) then (Except.error 400, db)
        else
          match updateProjectMemberRoleInner db actor pid mid r with
          | Except.ok (m, db2) => (Except.ok m, db2)
          | Except.error _ => (Except.error 500, db)
  | _, _ => (Except.error 400, db)

/-- Outcome of deleteProject: success response, an ApiError status, or
`silent` — the inner catch of the delete transaction swallows the error,
sends no response and rethrows nothing. -/
inductive DelOut where
  | success
  | apiErr (code : Nat)
  | silent
deriving DecidableEq, Repr

/-- deleteProject from src/src/controllers/project.controller.js (lines
287-343). A malformed id gives 400 before the try block; the 404 and 403
thrown inside the outer try are rethrown as 500 by the outer catch. The
transaction stages the three deletes (Project, its ProjectMember rows, its
Task rows) and commits them together; if the transaction fails (`txFail`)
the inner catch aborts it, so no staged delete is visible, and no response
is produced. -/
def deleteProject (db : DB) (actor : Nat) (projectId : IdStr) (txFail : Bool) : DelOut × DB :=
  match projectId with
  | IdStr.malformed => (DelOut.apiErr 400, db)
  | IdStr.valid pid =>
      match findProject db pid with
      | none => (DelOut.apiErr 500, db)
      | some _ =>
          if !(isProjectAdmin db false (IdStr.valid pid) (IdStr.valid actor)) then
            (DelOut.apiErr 500, db)
          else if txFail then (DelOut.silent, db)
          else
            (DelOut.success,
              { db with
                projects := db.projects.filter (fun p => !(p.id == pid)),
                members := db.members.filter (fun m => !(m.project == pid)),
                tasks := db.tasks.filter (fun t => !(t.project == pid)) })

/-- Allow-list of sortable fields in getProjectTasks
(src/src/controllers/project.controller.js line 631). -/
def allowedSortBy : List String := ["createdAt", "updatedAt", "title", "status"]

/-- Model of the JavaScript assignment `obj[key] = v` on a plain object
literal used as a dictionary: for the key "__proto__" the assignment hits
the inherited Object.prototype accessor and creates no own property (with a
number value it is a silent no-op); for every other key it stores the
pair. -/
def jsObjAssign (obj : List (String × Int)) (key : String) (v : Int) : List (String × Int) :=
  if key = "__proto__" then obj else obj ++ [(key, v)]

/-- Sort specification built by getProjectTasks
(src/src/controllers/project.controller.js lines 630-636): a sortBy outside
the allow-list falls back to "createdAt"; sortOrder "asc" (case-insensitive)
is 1, anything else -1; the sanitized field is assigned into the empty
sortOptions object. -/
def getProjectTasksSort (sortBy sortOrder : String) : List (String × Int) :=
  let sb := if allowedSortBy.contains sortBy then sortBy else "createdAt"
  let so : Int := if jsToLower sortOrder == "asc" then 1 else -1
  jsObjAssign [] sb so

/-- Sort specification built by getProjectTask
(src/src/controllers/task.controller.js lines 50-52): there is no
allow-list — the caller's `sort` string is assigned directly as the key of
the empty sortOptions object (so "__proto__" silently creates no key). -/
def getProjectTaskSort (sort order : String) : List (String × Int) :=
  jsObjAssign [] sort (if order == "asc" then 1 else -1)

/-- addMemberToProject from src/src/controllers/project.controller.js (lines
352-431); the result is the HTTP status of the response together with the
resulting store. Validation order follows the source: project id (line 357),
email (line 362), then the role guard (lines 367-372): `memberRoleInput`
lowercases a truthy supplied role, defaulting to "member", and
`if (role && AvailableUserRoles.includes(memberRoleInput))` rejects exactly
the known roles with 400 — all before any lookup. Errors thrown inside the
try block (404/403/400) are rethrown as 500 by the catch. At the create, a
role outside the list is replaced by the default "member" and the row is
persisted by `ProjectMember.create` (line 408, not in any session); the
response-building populate chain (lines 419-421) then calls
`.populate(...).lean()` on the Document's populate result, which throws a
TypeError in every Mongoose version, and the catch rethrows it as 500 — so
the row stays persisted but the 201 response is unreachable. `newId` is the
id Mongo assigns to the created row. -/
def addMemberToProject (db : DB) (actor : Nat) (projectId : IdStr)
    (email : Option String) (role : Option String) (newId : Nat) : Nat × DB :=
  if !(isValidObjectId projectId) then (400, db)
  else
    match email with
    | none => (400, db)
    | some e =>
      if (jsTrim e).isEmpty then (400, db)
      else
        let roleTruthy := match role with | some r => !r.isEmpty | none => false
        let memberRoleInput := match role with
          | some r => if r.isEmpty then UserRolesEnum.MEMBER else jsToLower r
          | none => UserRolesEnum.MEMBER
        if roleTruthy && AvailableUserRoles.contains memberRoleInput then (400, db)
        else
          match projectId with
          | IdStr.malformed => (400, db)
          | IdStr.valid pid =>
            match findProject db pid with
            | none => (500, db)
            | some _ =>
              if !(isProjectAdmin db false (IdStr.valid pid) (IdStr.valid actor)) then
                (500, db)
              else
                match findUserByEmail db e with
                | none => (500, db)
                | some userToAdd =>
                  match findMember db pid userToAdd.id with
                  | some _ => (500, db)
                  | none =>
                    let memberRole := if AvailableUserRoles.contains memberRoleInput
                      then memberRoleInput else UserRolesEnum.MEMBER
                    let newMember : ProjectMember :=
                      { id := newId, project := pid, users := userToAdd.id, role := memberRole }
                    -- row persisted; populate chain throws; catch rethrows 500
                    (500, { db with members := db.members ++ [newMember] })

/-- The empty store. -/
def dbEmpty : DB := { projects := [], members := [], tasks := [], notes := [], users := [] }

/-- Sample store: project 1 created by user 10, with ordinary members 20 and 30. -/
def dbSample : DB :=
  { projects := [{ id := 1, name := "Alpha", description := "", createdBy := 10 }],
    members := [{ id := 100, project := 1, users := 20, role := "member" },
                { id := 101, project := 1, users := 30, role := "member" }],
    tasks := [], notes := [], users := [] }

/-- Sample store: project 1 created by user 10, whose creator also holds an
admin membership row. -/
def dbCreator : DB :=
  { projects := [{ id := 1, name := "Alpha", description := "", createdBy := 10 }],
    members := [{ id := 100, project := 1, users := 10, role := "admin" }],
    tasks := [], notes := [], users := [] }

/-- Sample store for the deleteProject frame property: two projects with
members, tasks, and a note attached to each. -/
def dbFrame : DB :=
  { projects := [{ id := 1, name := "Alpha", description := "", createdBy := 10 },
                 { id := 2, name := "Beta", description := "", createdBy := 11 }],
    members := [{ id := 100, project := 1, users := 10, role := "admin" },
                { id := 101, project := 2, users := 11, role := "admin" }],
    tasks := [{ id := 5, project := 1, title := "t1", description := "", assignedBy := 10,
                assignedTo := none, status := "todo", priority := "medium", dueDate := none },
              { id := 6, project := 2, title := "t2", description := "", assignedBy := 11,
                assignedTo := none, status := "todo", priority := "medium", dueDate := none }],
    notes := [{ id := 200, project := 1, createdBy := 10, content := "note on Alpha" },
              { id := 201, project := 2, createdBy := 11, content := "note on Beta" }],
    users := [] }

/-- Sample store for the addMemberToProject witness: project 1 created by
user 10, and a user 40 with a known email. -/
def dbAdd : DB :=
  { projects := [{ id := 1, name := "Alpha", description := "", createdBy := 10 }],
    members := [],
    tasks := [], notes := [],
    users := [{ id := 40, email := "ada@example.com", fullName := "Ada" }] }

/-- C4: isProjectMember(projectId, userId) returns true exactly when both ids
are well formed, no lookup error occurred, the project exists, and the user
is the project's creator or has a membership row of any role; in every other
situation (malformed ids, missing project, lookup error) it returns false.
In particular the creator is a member even with zero ProjectMember rows. -/
theorem isProjectMember_spec (db : DB) (fault : Bool) (projectId userId : IdStr) :
    isProjectMember db fault projectId userId = true ↔
      fault = false ∧ ∃ pid uid, projectId = IdStr.valid pid ∧ userId = IdStr.valid uid ∧
        ∃ p, findProject db pid = some p ∧
          (p.createdBy = uid ∨ (findMember db pid uid).isSome = true) := by
  cases projectId with
  | malformed => simp [isProjectMember]
  | valid pid =>
    cases userId with
    | malformed => simp [isProjectMember]
    | valid uid =>
      cases fault with
      | true => simp [isProjectMember]
      | false =>
        cases h : findProject db pid with
        | none => simp [isProjectMember, h]
        | some p =>
          by_cases hc : p.createdBy = uid
          · simp [isProjectMember, h, hc]
          · simp [isProjectMember, h, hc]

/-- C5: isProjectAdmin(projectId, userId) returns true exactly when both ids
are well formed, no lookup error occurred, the project exists, and the user
is the creator or has a membership row whose role is the literal "admin";
a row with role "project_admin" or "member" never qualifies. -/
theorem isProjectAdmin_spec (db : DB) (fault : Bool) (projectId userId : IdStr) :
    isProjectAdmin db fault projectId userId = true ↔
      fault = false ∧ ∃ pid uid, projectId = IdStr.valid pid ∧ userId = IdStr.valid uid ∧
        ∃ p, findProject db pid = some p ∧
          (p.createdBy = uid ∨
            ∃ m, findMember db pid uid = some m ∧ m.role = UserRolesEnum.ADMIN) := by
  cases projectId with
  | malformed => simp [isProjectAdmin]
  | valid pid =>
    cases userId with
    | malformed => simp [isProjectAdmin]
    | valid uid =>
      cases fault with
      | true => simp [isProjectAdmin]
      | false =>
        cases h : findProject db pid with
        | none => simp [isProjectAdmin, h]
        | some p =>
          by_cases hc : p.createdBy = uid
          · simp [isProjectAdmin, h, hc]
          · cases hm : findMember db pid uid with
            | none => simp [isProjectAdmin, h, hc, hm]
            | some m => simp [isProjectAdmin, h, hc, hm]

/-- Case analysis helper for deleteProject: every run either leaves the
store untouched without a success response, or reports success and replaces
the three collections by their filtered versions. -/
theorem deleteProject_cases (db : DB) (actor : Nat) (projectId : IdStr) (txFail : Bool) :
    ((deleteProject db actor projectId txFail).1 ≠ DelOut.success ∧
      (deleteProject db actor projectId txFail).2 = db) ∨
    (∃ pid, projectId = IdStr.valid pid ∧
      (deleteProject db actor projectId txFail).1 = DelOut.success ∧
      (deleteProject db actor projectId txFail).2 =
        { db with
          projects := db.projects.filter (fun p => !(p.id == pid)),
          members := db.members.filter (fun m => !(m.project == pid)),
          tasks := db.tasks.filter (fun t => !(t.project == pid)) }) := by
  cases projectId with
  | malformed => exact Or.inl ⟨by simp [deleteProject], rfl⟩
  | valid pid =>
    cases hp : findProject db pid with
    | none => exact Or.inl ⟨by simp [deleteProject, hp], by simp [deleteProject, hp]⟩
    | some p =>
      cases ha : isProjectAdmin db false (IdStr.valid pid) (IdStr.valid actor) with
      | false =>
        exact Or.inl ⟨by simp [deleteProject, hp, ha], by simp [deleteProject, hp, ha]⟩
      | true =>
        cases txFail with
        | true =>
          exact Or.inl ⟨by simp [deleteProject, hp, ha], by simp [deleteProject, hp, ha]⟩
        | false =>
          exact Or.inr ⟨pid, rfl, by simp [deleteProject, hp, ha], by simp [deleteProject, hp, ha]⟩

/-- C1 (code bug): removeMemberFromProject can never carry out the removal
policy the claim states. The member lookup projects `.select("user")` (the
schema field is `users`), so for every input that passes the creator guard,
line 472 throws a TypeError that the catch rethrows as 500 before the
delete at line 478 runs: the store is never modified and no call succeeds.
Concretely on `dbSample`: member 20 removing their own membership gets 500
with the row preserved, and the creator (a project admin) removing member
30 also gets 500 with the row preserved — both removals the claim says are
permitted. -/
theorem removeMember_never_deletes :
    (∀ (db : DB) (actor : Nat) (projectId memberId : IdStr),
      (removeMemberFromProject db actor projectId memberId).2 = db ∧
      ∃ c, (removeMemberFromProject db actor projectId memberId).1 = Except.error c) ∧
    isProjectAdmin dbSample false (IdStr.valid 1) (IdStr.valid 10) = true ∧
    removeMemberFromProject dbSample 20 (IdStr.valid 1) (IdStr.valid 20) =
      (Except.error 500, dbSample) ∧
    removeMemberFromProject dbSample 10 (IdStr.valid 1) (IdStr.valid 30) =
      (Except.error 500, dbSample) := by
  refine ⟨?_, rfl, rfl, rfl⟩
  intro db actor projectId memberId
  cases projectId with
  | malformed => exact ⟨rfl, 400, rfl⟩
  | valid pid =>
    cases memberId with
    | malformed => exact ⟨rfl, 400, rfl⟩
    | valid mid =>
      have hinner : ∃ e, removeMemberInner db actor pid mid = Except.error e := by
        cases hfp : findProject db pid with
        | none => exact ⟨RMErr.apiError 404, by simp [removeMemberInner, hfp]⟩
        | some project =>
          cases hfm : findMember db pid mid with
          | none => exact ⟨RMErr.apiError 404, by simp [removeMemberInner, hfp, hfm]⟩
          | some m =>
            by_cases hc : project.createdBy = mid
            · exact ⟨RMErr.apiError 400, by simp [removeMemberInner, hfp, hfm, hc]⟩
            · exact ⟨RMErr.typeError, by simp [removeMemberInner, hfp, hfm, hc]⟩
      obtain ⟨e, he⟩ := hinner
      have hw : removeMemberFromProject db actor (IdStr.valid pid) (IdStr.valid mid) =
          (Except.error 500, db) := by
        simp [removeMemberFromProject, he]
      exact ⟨by rw [hw], 500, by rw [hw]⟩

/-- C3 counterexample: removing the creator's own membership row does fail
and the row is preserved, but not with a conflict-class (409) error: the
guard throws ApiError 400 ("Project creator cannot be removed") and the
surrounding catch-all rethrows it as 500. -/
theorem removeMember_creator_error_code_cex :
    removeMemberInner dbCreator 10 1 10 = Except.error (RMErr.apiError 400) ∧
    removeMemberFromProject dbCreator 10 (IdStr.valid 1) (IdStr.valid 10) =
      (Except.error 500, dbCreator) ∧
    (400 : Nat) ≠ 409 ∧ (500 : Nat) ≠ 409 :=
  ⟨rfl, rfl, by decide, by decide⟩

/-- C3 (amended): for every existing project and every actor of any role,
removing the creator's membership row fails — the guard throws a 400 error
which the catch-all rethrows as 500 — and the store is unchanged, so the
creator's row is never deleted while the project exists; and the creator's
row can still be role-changed through updateProjectMemberRole by a project
admin supplying a known role. -/
theorem removeMember_creator_guard :
    (∀ (db : DB) (actor pid mid : Nat) (p : Project) (m : ProjectMember),
      findProject db pid = some p → p.createdBy = mid → findMember db pid mid = some m →
      removeMemberFromProject db actor (IdStr.valid pid) (IdStr.valid mid) =
        (Except.error 500, db)) ∧
    (∀ (db : DB) (actor pid mid : Nat) (p : Project) (m : ProjectMember) (r : String),
      findProject db pid = some p → findMember db pid mid = some m →
      isProjectAdmin db false (IdStr.valid pid) (IdStr.valid actor) = true →
      AvailableUserRoles.contains r = true →
      updateProjectMemberRole db actor (IdStr.valid pid) (IdStr.valid mid) (some r) =
        (Except.ok { m with role := r },
          { db with members :=
              db.members.map (fun x => if x.id == m.id then { m with role := r } else x) })) := by
  constructor
  · intro db actor pid mid p m hp hc hm
    simp [removeMemberFromProject, removeMemberInner, hp, hm, hc]
  · intro db actor pid mid p m r hp hm hadmin hr
    have hr' : r ∈ AvailableUserRoles := by simpa using hr
    simp [updateProjectMemberRole, updateProjectMemberRoleInner, hp, hm, hadmin, hr']

/-- C3 witness: on the concrete store `dbCreator`, removal of the creator's
row by the creator fails with 500 leaving the store unchanged, and an
admin role-change of that same row to "member" succeeds. -/
theorem removeMember_creator_guard_witness :
    findProject dbCreator 1 = some { id := 1, name := "Alpha", description := "", createdBy := 10 } ∧
    findMember dbCreator 1 10 = some { id := 100, project := 1, users := 10, role := "admin" } ∧
    isProjectAdmin dbCreator false (IdStr.valid 1) (IdStr.valid 10) = true ∧
    AvailableUserRoles.contains "member" = true ∧
    removeMemberFromProject dbCreator 10 (IdStr.valid 1) (IdStr.valid 10) =
      (Except.error 500, dbCreator) ∧
    updateProjectMemberRole dbCreator 10 (IdStr.valid 1) (IdStr.valid 10) (some "member") =
      (Except.ok { id := 100, project := 1, users := 10, role := "member" },
        { dbCreator with members :=
            dbCreator.members.map (fun x =>
              if x.id == 100 then { id := 100, project := 1, users := 10, role := "member" }
              else x) }) :=
  ⟨rfl, rfl, rfl, by decide,
   removeMember_creator_guard.1 dbCreator 10 1 10 _ _ rfl rfl rfl,
   removeMember_creator_guard.2 dbCreator 10 1 10
     { id := 1, name := "Alpha", description := "", createdBy := 10 }
     { id := 100, project := 1, users := 10, role := "admin" } "member"
     rfl rfl rfl (by decide)⟩

/-- C7 counterexample: the task.controller.js entry point getProjectTask
does not fall back to the default field for out-of-allow-list sort values:
"secretField" is forwarded directly into the sort specification, and
"__proto__" — the very value the claim names — produces an empty sort
specification (the prototype-setter no-op), not a createdAt sort. -/
theorem getProjectTaskSort_forwards_cex :
    getProjectTaskSort "secretField" "desc" = [("secretField", -1)] ∧
    allowedSortBy.contains "secretField" = false ∧
    "secretField" ≠ "createdAt" ∧
    getProjectTaskSort "__proto__" "desc" = [] ∧
    (getProjectTaskSort "__proto__" "desc").map Prod.fst ≠ ["createdAt"] :=
  ⟨by decide, by decide, by decide, by decide, by decide⟩

/-- C7 (amended): in getProjectTasks (project.controller.js) every sortBy
outside the allow-list falls back to the default field "createdAt". The
second project-scoped task listing entry point, getProjectTask
(task.controller.js), performs no allow-list check: every sort value other
than "__proto__" is used directly as the sort key sent to the store, and
for "__proto__" the assignment hits the inherited prototype setter and
creates no key, so an empty sort specification — not a createdAt fallback —
is sent. -/
theorem sortBy_allowlist_amended :
    (∀ sortBy sortOrder : String, allowedSortBy.contains sortBy = false →
      (getProjectTasksSort sortBy sortOrder).map Prod.fst = ["createdAt"]) ∧
    (∀ s o : String, s ≠ "__proto__" →
      (getProjectTaskSort s o).map Prod.fst = [s]) ∧
    (∀ o : String, getProjectTaskSort "__proto__" o = []) := by
  refine ⟨?_, ?_, ?_⟩
  · intro sortBy sortOrder h
    have h' : sortBy ∉ allowedSortBy := by simpa using h
    simp [getProjectTasksSort, jsObjAssign, h']
  · intro s o hs
    simp [getProjectTaskSort, jsObjAssign, hs]
  · intro o
    simp [getProjectTaskSort, jsObjAssign]

/-- C7 witness: on the concrete sort value "secretSort", getProjectTasks
falls back to "createdAt" while getProjectTask forwards "secretSort"; on
"__proto__", getProjectTask sends an empty sort specification. -/
theorem sortBy_allowlist_amended_witness :
    allowedSortBy.contains "secretSort" = false ∧
    (getProjectTasksSort "secretSort" "desc").map Prod.fst = ["createdAt"] ∧
    "secretSort" ≠ "__proto__" ∧
    (getProjectTaskSort "secretSort" "desc").map Prod.fst = ["secretSort"] ∧
    getProjectTaskSort "__proto__" "desc" = [] :=
  ⟨by decide, sortBy_allowlist_amended.1 "secretSort" "desc" (by decide), by decide,
   sortBy_allowlist_amended.2.1 "secretSort" "desc" (by decide),
   sortBy_allowlist_amended.2.2 "desc"⟩

/-- C6: deleteProject is all-or-nothing: every call either leaves the store
exactly as it was and does not report success (any validation or
authorization failure, and any failure inside the transaction, which is
aborted), or reports success, after which the project row is gone and zero
ProjectMember rows and zero Task rows reference it. -/
theorem deleteProject_allOrNothing (db : DB) (actor : Nat) (projectId : IdStr) (txFail : Bool) :
    ((deleteProject db actor projectId txFail).2 = db ∧
      (deleteProject db actor projectId txFail).1 ≠ DelOut.success) ∨
    (∃ pid, projectId = IdStr.valid pid ∧
      (deleteProject db actor projectId txFail).1 = DelOut.success ∧
      findProject (deleteProject db actor projectId txFail).2 pid = none ∧
      (deleteProject db actor projectId txFail).2.members.filter
        (fun m => m.project == pid) = [] ∧
      (deleteProject db actor projectId txFail).2.tasks.filter
        (fun t => t.project == pid) = []) := by
  rcases deleteProject_cases db actor projectId txFail with ⟨h1, h2⟩ | ⟨pid, hpid, hs, heq⟩
  · exact Or.inl ⟨h2, h1⟩
  · right
    refine ⟨pid, hpid, hs, ?_, ?_, ?_⟩
    · rw [heq]
      show (db.projects.filter (fun p => !(p.id == pid))).find? (fun p => p.id == pid) = none
      rw [List.find?_eq_none]
      intro x hx
      have hx2 := (List.mem_filter.mp hx).2
      simp at hx2
      simp [hx2]
    · rw [heq]
      show (db.members.filter (fun m => !(m.project == pid))).filter
        (fun m => m.project == pid) = []
      rw [List.filter_eq_nil_iff]
      intro m hm
      have hm2 := (List.mem_filter.mp hm).2
      simp at hm2
      simp [hm2]
    · rw [heq]
      show (db.tasks.filter (fun t => !(t.project == pid))).filter
        (fun t => t.project == pid) = []
      rw [List.filter_eq_nil_iff]
      intro t ht
      have ht2 := (List.mem_filter.mp ht).2
      simp at ht2
      simp [ht2]

/-- C10: a committed deleteProject removes only rows of the deleted project:
the notes and users collections are untouched on every run (so every
ProjectNote survives, including notes referencing the deleted project), and
every Project, ProjectMember and Task row belonging to a different project
survives. -/
theorem deleteProject_frame (db : DB) (actor : Nat) (projectId : IdStr) (txFail : Bool) :
    (deleteProject db actor projectId txFail).2.notes = db.notes ∧
    (deleteProject db actor projectId txFail).2.users = db.users ∧
    ∀ pid, projectId = IdStr.valid pid →
      (∀ q ∈ db.projects, q.id ≠ pid → q ∈ (deleteProject db actor projectId txFail).2.projects) ∧
      (∀ m ∈ db.members, m.project ≠ pid → m ∈ (deleteProject db actor projectId txFail).2.members) ∧
      (∀ t ∈ db.tasks, t.project ≠ pid → t ∈ (deleteProject db actor projectId txFail).2.tasks) := by
  rcases deleteProject_cases db actor projectId txFail with ⟨-, h2⟩ | ⟨pid, hpid, -, heq⟩
  · rw [h2]
    refine ⟨rfl, rfl, ?_⟩
    intro pid hpid
    exact ⟨fun q hq _ => hq, fun m hm _ => hm, fun t ht _ => ht⟩
  · rw [heq]
    refine ⟨rfl, rfl, ?_⟩
    intro pid2 hpid2
    rw [hpid] at hpid2
    cases hpid2
    refine ⟨?_, ?_, ?_⟩
    · intro q hq hne
      show q ∈ db.projects.filter (fun p => !(p.id == pid))
      exact List.mem_filter.mpr ⟨hq, by simp [hne]⟩
    · intro m hm hne
      show m ∈ db.members.filter (fun m => !(m.project == pid))
      exact List.mem_filter.mpr ⟨hm, by simp [hne]⟩
    · intro t ht hne
      show t ∈ db.tasks.filter (fun t => !(t.project == pid))
      exact List.mem_filter.mpr ⟨ht, by simp [hne]⟩

/-- C10 witness: deleting project 1 of `dbFrame` (creator 10 is authorized)
keeps both notes — including the note attached to project 1 — and keeps
project 2's membership and task rows. -/
theorem deleteProject_frame_witness :
    (deleteProject dbFrame 10 (IdStr.valid 1) false).2.notes = dbFrame.notes ∧
    ({ id := 200, project := 1, createdBy := 10, content := "note on Alpha" } : ProjectNote)
      ∈ dbFrame.notes ∧
    ({ id := 101, project := 2, users := 11, role := "admin" } : ProjectMember)
      ∈ (deleteProject dbFrame 10 (IdStr.valid 1) false).2.members ∧
    ({ id := 6, project := 2, title := "t2", description := "", assignedBy := 11,
       assignedTo := none, status := "todo", priority := "medium", dueDate := none } : Task)
      ∈ (deleteProject dbFrame 10 (IdStr.valid 1) false).2.tasks :=
  ⟨(deleteProject_frame dbFrame 10 (IdStr.valid 1) false).1,
   by decide,
   ((deleteProject_frame dbFrame 10 (IdStr.valid 1) false).2.2 1 rfl).2.1
     { id := 101, project := 2, users := 11, role := "admin" } (by decide) (by decide),
   ((deleteProject_frame dbFrame 10 (IdStr.valid 1) false).2.2 1 rfl).2.2
     { id := 6, project := 2, title := "t2", description := "", assignedBy := 11,
       assignedTo := none, status := "todo", priority := "medium", dueDate := none }
     (by decide) (by decide)⟩

/-- C2: createProject is atomic: provided the fresh project id is unused by
existing membership rows, either the call succeeds and both the new Project
row (with the actor as creator) and exactly one admin ProjectMember row
binding the actor to that project are persisted, or the call fails and the
store is exactly as before — in particular a name that had zero rows still
has zero rows after the failed attempt. -/
theorem createProject_atomic (db : DB) (actor : Nat) (name description : String)
    (pid mid : Nat) (inject : Bool)
    (hfresh : ∀ m ∈ db.members, m.project ≠ pid) :
    ((∃ n, (createProject db actor name description pid mid inject).1 = CPOut.ok n) ∧
      (∃ p, p ∈ (createProject db actor name description pid mid inject).2.projects ∧
        p.id = pid ∧ p.name = name ∧ p.createdBy = actor) ∧
      ((createProject db actor name description pid mid inject).2.members.filter
        (fun m => m.project == pid && m.users == actor
          && m.role == UserRolesEnum.ADMIN)).length = 1) ∨
    ((∃ c, (createProject db actor name description pid mid inject).1 = CPOut.err c) ∧
      (createProject db actor name description pid mid inject).2 = db ∧
      ((db.projects.filter (fun p => p.name == name)).length = 0 →
        ((createProject db actor name description pid mid inject).2.projects.filter
          (fun p => p.name == name)).length = 0)) := by
  by_cases h1 : (jsTrim name).isEmpty
  · right
    refine ⟨⟨400, by simp [createProject, h1]⟩, by simp [createProject, h1], ?_⟩
    intro h
    simpa [createProject, h1] using h
  · by_cases h2 : db.projects.any (fun p => p.name == name)
    · right
      refine ⟨⟨400, by simp [createProject, h1, h2]⟩, by simp [createProject, h1, h2], ?_⟩
      intro h
      simpa [createProject, h1, h2] using h
    · by_cases h3 : inject
      · right
        refine ⟨⟨500, by simp [createProject, h1, h2, h3]⟩, by simp [createProject, h1, h2, h3], ?_⟩
        intro h
        simpa [createProject, h1, h2, h3] using h
      · left
        have hnil : db.members.filter
            (fun m => m.project == pid && m.users == actor
              && m.role == UserRolesEnum.ADMIN) = [] := by
          rw [List.filter_eq_nil_iff]
          intro m hm
          simp [hfresh m hm]
        refine ⟨⟨pid, by simp [createProject, h1, h2, h3]⟩,
          ⟨{ id := pid, name := name, description := description, createdBy := actor },
            ?_, rfl, rfl, rfl⟩, ?_⟩
        · simp [createProject, h1, h2, h3]
        · have hmem : (createProject db actor name description pid mid inject).2.members =
              db.members ++
                [({ id := mid, project := pid, users := actor, role := UserRolesEnum.ADMIN } :
                  ProjectMember)] := by
            simp [createProject, h1, h2, h3]
          rw [hmem, List.filter_append, hnil]
          simp

/-- C2 witness: creating project "Alpha" in the empty store by actor 10
persists the project row and exactly one admin membership row for 10. -/
theorem createProject_atomic_witness :
    (∀ m ∈ dbEmpty.members, m.project ≠ 1) ∧
    (((∃ n, (createProject dbEmpty 10 "Alpha" "" 1 100 false).1 = CPOut.ok n) ∧
      (∃ p, p ∈ (createProject dbEmpty 10 "Alpha" "" 1 100 false).2.projects ∧
        p.id = 1 ∧ p.name = "Alpha" ∧ p.createdBy = 10) ∧
      ((createProject dbEmpty 10 "Alpha" "" 1 100 false).2.members.filter
        (fun m => m.project == 1 && m.users == 10
          && m.role == UserRolesEnum.ADMIN)).length = 1) ∨
    ((∃ c, (createProject dbEmpty 10 "Alpha" "" 1 100 false).1 = CPOut.err c) ∧
      (createProject dbEmpty 10 "Alpha" "" 1 100 false).2 = dbEmpty ∧
      ((dbEmpty.projects.filter (fun p => p.name == "Alpha")).length = 0 →
        ((createProject dbEmpty 10 "Alpha" "" 1 100 false).2.projects.filter
          (fun p => p.name == "Alpha")).length = 0))) :=
  ⟨by simp [dbEmpty],
   createProject_atomic dbEmpty 10 "Alpha" "" 1 100 false (by simp [dbEmpty])⟩

/-- C8: for every store — hence before any project, user or membership
lookup — addMemberToProject rejects with 400 every supplied nonempty role
whose lowercase form is in the known role list; a supplied role outside the
list, or an omitted role, proceeds past validation, and the membership row
persisted by the create carries the default role "member" (the response is
the 500 from the unreachable-201 populate chain, but the row is stored). -/
theorem addMember_role_validation :
    (∀ (db : DB) (actor : Nat) (projectId : IdStr) (email : Option String) (r : String)
        (newId : Nat),
      r.isEmpty = false → AvailableUserRoles.contains (jsToLower r) = true →
      addMemberToProject db actor projectId email (some r) newId = (400, db)) ∧
    (∀ (db : DB) (actor : Nat) (pid : Nat) (e : String) (r : String) (newId : Nat)
        (p : Project) (u : User),
      r.isEmpty = false → AvailableUserRoles.contains (jsToLower r) = false →
      (jsTrim e).isEmpty = false →
      findProject db pid = some p →
      isProjectAdmin db false (IdStr.valid pid) (IdStr.valid actor) = true →
      findUserByEmail db e = some u →
      findMember db pid u.id = none →
      addMemberToProject db actor (IdStr.valid pid) (some e) (some r) newId =
        (500,
          { db with members := db.members ++
              [({ id := newId, project := pid, users := u.id, role := UserRolesEnum.MEMBER } :
                ProjectMember)] })) ∧
    (∀ (db : DB) (actor : Nat) (pid : Nat) (e : String) (newId : Nat)
        (p : Project) (u : User),
      (jsTrim e).isEmpty = false →
      findProject db pid = some p →
      isProjectAdmin db false (IdStr.valid pid) (IdStr.valid actor) = true →
      findUserByEmail db e = some u →
      findMember db pid u.id = none →
      addMemberToProject db actor (IdStr.valid pid) (some e) none newId =
        (500,
          { db with members := db.members ++
              [({ id := newId, project := pid, users := u.id, role := UserRolesEnum.MEMBER } :
                ProjectMember)] })) := by
  refine ⟨?_, ?_, ?_⟩
  · intro db actor projectId email r newId hr hcontains
    have hc' : jsToLower r ∈ AvailableUserRoles := by simpa using hcontains
    cases hval : isValidObjectId projectId with
    | false => simp [addMemberToProject, hval]
    | true =>
      cases email with
      | none => simp [addMemberToProject, hval]
      | some e =>
        by_cases he : (jsTrim e).isEmpty
        · simp [addMemberToProject, hval, he]
        · simp [addMemberToProject, hval, he, hr, hc']
  · intro db actor pid e r newId p u hr hcontains he hp hadmin hu hm
    have hc' : jsToLower r ∉ AvailableUserRoles := by simpa using hcontains
    simp [addMemberToProject, isValidObjectId, he, hr, hc', hp, hadmin, hu, hm]
  · intro db actor pid e newId p u he hp hadmin hu hm
    simp [addMemberToProject, isValidObjectId, he, hp, hadmin, hu, hm, UserRolesEnum.MEMBER,
      AvailableUserRoles, UserRolesEnum.ADMIN, UserRolesEnum.PROJECT_ADMIN]

/-- C8 witness: on the concrete store `dbAdd` (project 1, creator 10, user
40 with email "ada@example.com"): supplying the known role "Admin" is
rejected with 400 and nothing is stored, while supplying the unknown role
"boss" proceeds and persists a row with the default role "member" (the
response being the populate-chain 500). -/
theorem addMember_role_validation_witness :
    "Admin".isEmpty = false ∧
    AvailableUserRoles.contains (jsToLower "Admin") = true ∧
    addMemberToProject dbAdd 10 (IdStr.valid 1) (some "ada@example.com") (some "Admin") 300 =
      (400, dbAdd) ∧
    AvailableUserRoles.contains (jsToLower "boss") = false ∧
    addMemberToProject dbAdd 10 (IdStr.valid 1) (some "ada@example.com") (some "boss") 300 =
      (500,
        { dbAdd with members := dbAdd.members ++
            [({ id := 300, project := 1, users := 40, role := UserRolesEnum.MEMBER } :
              ProjectMember)] }) :=
  ⟨rfl, by decide,
   addMember_role_validation.1 dbAdd 10 (IdStr.valid 1) (some "ada@example.com") "Admin" 300
     rfl (by decide),
   by decide,
   addMember_role_validation.2.1 dbAdd 10 1 "ada@example.com" "boss" 300
     { id := 1, name := "Alpha", description := "", createdBy := 10 }
     { id := 40, email := "ada@example.com", fullName := "Ada" }
     rfl (by decide) (by decide) (by decide) rfl (by decide) rfl⟩

end ProjectMgmt
